import Mathlib

/-!
# Verification of `update_authorized_keys.py`

A shallow embedding of the SSH authorized-keys cache updater
(`src/docker-res/ssh/update_authorized_keys.py`) and proofs of the
specified properties.

The script discovers running compute units (Kubernetes pods or Docker
containers), execs into each new one to fetch its public key, filters the
fetched text by the `ssh` prefix, appends (or, in `full` mode, rewrites)
the authorized-keys cache file, and rewrites the query-cache file with the
identifiers of all units skipped or successfully fetched this run — all
under a non-blocking file lock.

Modelling decisions:
* Remote execution (`stream.stream` / `container.exec_run`) is an oracle
  `Str → Option Str` (resp. `Container → Option Str`); `none`
  models the backend raising an exception for an unreachable unit.
* Files are lists of lines (entries); the query-cache file is
  `Option (List Str)` where `none` means the file does not exist
  (`os.path.isfile` false, `os.remove` raises `FileNotFoundError`).
* An uncaught Python exception is the `RunResult.error` outcome; the
  caught `filelock.Timeout` is `RunResult.lockBusy`.
-/

/-- Python text (unit names, container ids, key material, command-line
arguments) is modelled as its character sequence, so that every operation
of the embedding computes by kernel reduction; Python's
`str.startswith(p)` is `List.isPrefixOf p`. -/
abbrev Str : Type := List Char

/-- A Docker container as seen by `docker_client.containers.list()`:
matching uses `container.name`, caching uses `container.id`. -/
structure Container where
  name : Str
  id : Str
deriving DecidableEq, Repr

/-- The ambient configuration of the Kubernetes variant: the
`SSH_PERMIT_SERVICE_PREFIX` environment value and the remote-exec oracle
(`stream.stream(... connect_get_namespaced_pod_exec ...)`); `none` models
the exception raised when the pod cannot be reached. -/
structure KubeEnv where
  sshPermitServicePfx : Str
  fetchKey : Str → Option Str

/-- The ambient configuration of the Docker variant: the
`SSH_PERMIT_SERVICE_PREFIX` environment value and the `exec_run` oracle;
`none` models `exec_run` raising (e.g. `APIError` for a container that
died after listing). -/
structure DockerEnv where
  sshPermitServicePfx : Str
  execRun : Container → Option Str

/-- Embedding of `get_authorized_keys_kubernetes(query_cache)`.

The pod list is the result of `list_namespaced_pod(..., "status.phase=Running")`
(names of running pods, in listing order).  For each pod: names not starting
with the configured value are ignored; names already in `query_cache` are
carried into `new_query_cache` without an exec; otherwise the exec oracle is
consulted — on success the output joins `authorized_keys` and the name joins
`new_query_cache`, on failure (the `except` branch) the pod is simply
dropped from both. Returns `(authorized_keys, new_query_cache)`. -/
def get_authorized_keys_kubernetes (env : KubeEnv) :
    List Str → List Str → List Str × List Str
  | [], _ => ([], [])
  | name :: rest, query_cache =>
    let r := get_authorized_keys_kubernetes env rest query_cache
    if env.sshPermitServicePfx.isPrefixOf name = false then r
    else if query_cache.contains name then (r.1, name :: r.2)
    else
      match env.fetchKey name with
      | some key => (key :: r.1, name :: r.2)
      | none => r

/-- Embedding of `get_authorized_keys_docker(query_cache)`.

Same structure as the Kubernetes variant, except the skip check and the
cache entries use `container.id`, and — crucially — the source has **no**
`try/except` around `exec_run`: a failing exec raises out of the whole
function, modelled by the `Option` result being `none`. -/
def get_authorized_keys_docker (env : DockerEnv) :
    List Container → List Str → Option (List Str × List Str)
  | [], _ => some ([], [])
  | c :: rest, query_cache =>
    if env.sshPermitServicePfx.isPrefixOf c.name = false then
      get_authorized_keys_docker env rest query_cache
    else if query_cache.contains c.id then
      match get_authorized_keys_docker env rest query_cache with
      | some r => some (r.1, c.id :: r.2)
      | none => none
    else
      match env.execRun c with
      | some out =>
        match get_authorized_keys_docker env rest query_cache with
        | some r => some (out :: r.1, c.id :: r.2)
        | none => none
      | none => none

/-- The pods for which `get_authorized_keys_kubernetes` issues a remote
exec call (the branch reaching `stream.stream`), in order: exactly the
listed pods that match the configured name pfx and are not in
`query_cache`. -/
def kube_exec_calls (env : KubeEnv) : List Str → List Str → List Str
  | [], _ => []
  | name :: rest, query_cache =>
    if env.sshPermitServicePfx.isPrefixOf name = false then
      kube_exec_calls env rest query_cache
    else if query_cache.contains name then
      kube_exec_calls env rest query_cache
    else
      name :: kube_exec_calls env rest query_cache

/-- The container ids for which `get_authorized_keys_docker` issues an
`exec_run` call, in iteration order; a failing call is itself issued but
aborts the loop, so nothing after it is called. -/
def docker_exec_calls (env : DockerEnv) : List Container → List Str → List Str
  | [], _ => []
  | c :: rest, query_cache =>
    if env.sshPermitServicePfx.isPrefixOf c.name = false then
      docker_exec_calls env rest query_cache
    else if query_cache.contains c.id then
      docker_exec_calls env rest query_cache
    else
      match env.execRun c with
      | some _ => c.id :: docker_exec_calls env rest query_cache
      | none => [c.id]

/-- The active backend together with the fleet snapshot it would list this
run (`list_namespaced_pod` filtered to Running / `containers.list()`). -/
inductive Backend where
  | kubernetes (env : KubeEnv) (pods : List Str)
  | docker (env : DockerEnv) (containers : List Container)

/-- Dispatch on `container_client` in `update_cache_file`: run the active
variant's fetch function on the loaded query cache. -/
def backend_fetch : Backend → List Str → Option (List Str × List Str)
  | .kubernetes env pods, qc => some (get_authorized_keys_kubernetes env pods qc)
  | .docker env cs, qc => get_authorized_keys_docker env cs qc

/-- Exec calls the active variant issues for a given loaded query cache. -/
def backend_exec_calls : Backend → List Str → List Str
  | .kubernetes env pods, qc => kube_exec_calls env pods qc
  | .docker env cs, qc => docker_exec_calls env cs qc

/-- Host filesystem state touched by `update_cache_file`:
the authorized-keys cache file (lines), the query-cache file (`none` =
file absent), and whether another process currently holds
`cache_files.lock`. -/
structure FsState where
  authorizedKeysFile : List Str
  queryCacheFile : Option (List Str)
  lockHeld : Bool
deriving DecidableEq, Repr

/-- Outcome of one `update_cache_file()` invocation:
`ok` — the body ran to completion; `lockBusy` — `FileLock(timeout=0)`
raised `Timeout`, caught and ignored; `error` — an uncaught exception
(`FileNotFoundError` from `os.remove`, or a Docker exec failure)
propagated out. -/
inductive RunResult where
  | ok
  | lockBusy
  | error
deriving DecidableEq, Repr

/-- Process exit status: `Timeout` is caught (`pass`), so both normal
completion and lock contention exit 0; an uncaught exception exits
non-zero. -/
def exit_status : RunResult → Nat
  | .ok => 0
  | .lockBusy => 0
  | .error => 1

/-- `len(sys.argv) == 2 and sys.argv[1] == "full"`: the full-rebuild test
on the process argument vector (`argv.head` is the script name). -/
def is_full_run (argv : List Str) : Bool :=
  argv.length == 2 && argv.getD 1 [] == "full".data

/-- The `ssh`-prefix filter applied when writing fetched keys to the
authorized-keys cache file (`authorized_key.startswith("ssh")`). -/
def filter_ssh (keys : List Str) : List Str :=
  keys.filter (fun k => "ssh".data.isPrefixOf k)

/-- The locked body of `update_cache_file` from the point after the
`os.remove` handling: load the query cache (absent file loads as `[]`),
fetch via the active backend, write the kept keys with the given mode
(`'w'` truncates, `'a'` appends) and rewrite the query-cache file.  A
raising fetch leaves both files untouched (the writes come after it). -/
def run_locked (b : Backend) (writeModeTruncate : Bool) (st : FsState) :
    RunResult × FsState :=
  let query_cache := st.queryCacheFile.getD []
  match backend_fetch b query_cache with
  | none => (.error, st)
  | some r =>
    let base := if writeModeTruncate then [] else st.authorizedKeysFile
    (.ok, { st with
      authorizedKeysFile := base ++ filter_ssh r.1
      queryCacheFile := some r.2 })

/-- Embedding of `update_cache_file()`.

`FileLock(..., timeout=0)` raises `Timeout` at once when the lock is held:
the exception is caught, a message printed, and nothing else happens.
Otherwise, under the lock: in a `full` run `os.remove(query_cache_file)`
is attempted first — raising `FileNotFoundError` (uncaught) when the file
does not exist — and the write mode becomes `'w'`; then the locked body
runs.  The lock is released on every path (`with lock`). -/
def update_cache_file (b : Backend) (argv : List Str) (st : FsState) :
    RunResult × FsState :=
  if st.lockHeld then (.lockBusy, st)
  else if is_full_run argv then
    match st.queryCacheFile with
    | none => (.error, st)
    | some _ => run_locked b true { st with queryCacheFile := none }
  else run_locked b false st

/-- Exec calls issued by one invocation: none under lock contention, none
when `os.remove` raises before the fetch, otherwise those of the active
variant on the cache it loads. -/
def run_exec_calls (b : Backend) (argv : List Str) (st : FsState) :
    List Str :=
  if st.lockHeld then []
  else if is_full_run argv then
    match st.queryCacheFile with
    | none => []
    | some _ => backend_exec_calls b []
  else backend_exec_calls b (st.queryCacheFile.getD [])

/-! ## Characterizations of the Kubernetes fetch loop -/

/-- The new query cache produced by the Kubernetes variant is exactly the
listed running pods that match the name filter and are either previously
cached or successfully fetched, in listing order. -/
theorem kube_snd_eq (env : KubeEnv) (qc pods : List Str) :
    (get_authorized_keys_kubernetes env pods qc).2 =
      pods.filter (fun n => env.sshPermitServicePfx.isPrefixOf n &&
        (qc.contains n || (env.fetchKey n).isSome)) := by
  induction pods with
  | nil => rfl
  | cons name rest ih =>
    simp only [get_authorized_keys_kubernetes, List.filter_cons]
    by_cases h1 : env.sshPermitServicePfx.isPrefixOf name
    · by_cases h2 : name ∈ qc
      · simp [h1, h2, ih]
      · cases hf : env.fetchKey name with
        | some k => simp [h1, h2, hf, ih]
        | none => simp [h1, h2, hf, ih]
    · simp [h1, ih]

/-- The fetched keys produced by the Kubernetes variant are exactly the
successful exec outputs of the matching, uncached pods, in listing
order. -/
theorem kube_fst_eq (env : KubeEnv) (qc pods : List Str) :
    (get_authorized_keys_kubernetes env pods qc).1 =
      pods.filterMap (fun n =>
        if env.sshPermitServicePfx.isPrefixOf n && !qc.contains n
        then env.fetchKey n else none) := by
  induction pods with
  | nil => rfl
  | cons name rest ih =>
    simp only [get_authorized_keys_kubernetes, List.filterMap_cons]
    by_cases h1 : env.sshPermitServicePfx.isPrefixOf name
    · by_cases h2 : name ∈ qc
      · simp [h1, h2, ih]
      · cases hf : env.fetchKey name with
        | some k => simp [h1, h2, hf, ih]
        | none => simp [h1, h2, hf, ih]
    · simp [h1, ih]

/-- The exec calls of the Kubernetes variant are exactly the matching,
uncached pods, in listing order. -/
theorem kube_exec_calls_eq (env : KubeEnv) (qc pods : List Str) :
    kube_exec_calls env pods qc =
      pods.filter (fun n => env.sshPermitServicePfx.isPrefixOf n &&
        !qc.contains n) := by
  induction pods with
  | nil => rfl
  | cons name rest ih =>
    simp only [kube_exec_calls, List.filter_cons]
    by_cases h1 : env.sshPermitServicePfx.isPrefixOf name
    · by_cases h2 : name ∈ qc
      · simp [h1, h2, ih]
      · simp [h1, h2, ih]
    · simp [h1, ih]

/-- A pod name already in the query cache is never exec'd into by the
Kubernetes variant. -/
theorem kube_cached_not_called (env : KubeEnv) (qc pods : List Str)
    (x : Str) (hx : x ∈ qc) : x ∉ kube_exec_calls env pods qc := by
  rw [kube_exec_calls_eq]
  intro hmem
  have := List.of_mem_filter hmem
  simp only [Bool.and_eq_true, Bool.not_eq_true'] at this
  exact absurd hx (by simpa using this.2)

/-! ## Characterizations of the Docker fetch loop -/

/-- When the Docker variant completes without raising, its fetched keys
are the exec outputs of the matching uncached containers and its new
query cache lists the ids of **all** matching containers, in order. -/
theorem docker_some_eq (env : DockerEnv) (qc : List Str) :
    ∀ (cs : List Container) (r : List Str × List Str),
      get_authorized_keys_docker env cs qc = some r →
      r.1 = cs.filterMap (fun c =>
          if env.sshPermitServicePfx.isPrefixOf c.name && !qc.contains c.id
          then env.execRun c else none) ∧
      r.2 = (cs.filter
          (fun c => env.sshPermitServicePfx.isPrefixOf c.name)).map Container.id
  | [], r, h => by
    simp only [get_authorized_keys_docker, Option.some_inj] at h
    simp [← h]
  | c :: rest, r, h => by
    simp only [get_authorized_keys_docker] at h
    by_cases h1 : env.sshPermitServicePfx.isPrefixOf c.name
    · by_cases h2 : c.id ∈ qc
      · simp only [h1, Bool.true_eq_false, if_false] at h
        rw [if_pos (by simpa using h2)] at h
        cases hr : get_authorized_keys_docker env rest qc with
        | none => rw [hr] at h; exact absurd h (by simp)
        | some r0 =>
          rw [hr] at h
          simp only [Option.some_inj] at h
          have ih := docker_some_eq env qc rest r0 hr
          simp [← h, ih.1, ih.2, h1, h2, List.filterMap_cons, List.filter_cons]
      · simp only [h1, Bool.true_eq_false, if_false] at h
        rw [if_neg (by simpa using h2)] at h
        cases hf : env.execRun c with
        | none => rw [hf] at h; exact absurd h (by simp)
        | some out =>
          rw [hf] at h
          cases hr : get_authorized_keys_docker env rest qc with
          | none => rw [hr] at h; exact absurd h (by simp)
          | some r0 =>
            rw [hr] at h
            simp only [Option.some_inj] at h
            have ih := docker_some_eq env qc rest r0 hr
            have h1p : env.sshPermitServicePfx <+: c.name :=
              List.isPrefixOf_iff_prefix.mp h1
            simp [← h, ih.1, ih.2, h1, h1p, h2, hf, List.filterMap_cons,
              List.filter_cons]
    · simp only [h1] at h
      simp only [if_true] at h
      have ih := docker_some_eq env qc rest r h
      have h1p : ¬ env.sshPermitServicePfx <+: c.name :=
        fun hp => h1 (List.isPrefixOf_iff_prefix.mpr hp)
      simp [ih.1, ih.2, h1, h1p, List.filterMap_cons, List.filter_cons]

/-- If some matching, uncached container's `exec_run` raises, the whole
Docker fetch raises (there is no `try/except` in this variant). -/
theorem docker_fetch_failure_raises (env : DockerEnv) (qc : List Str)
    (c : Container) (hpfx : env.sshPermitServicePfx.isPrefixOf c.name = true)
    (hq : c.id ∉ qc) (hf : env.execRun c = none) :
    ∀ cs : List Container, c ∈ cs →
      get_authorized_keys_docker env cs qc = none
  | d :: rest, hmem => by
    rcases List.mem_cons.mp hmem with rfl | hmem'
    · simp only [get_authorized_keys_docker, hpfx, Bool.true_eq_false,
        if_false, hf]
      rw [if_neg (by simpa using hq)]
    · have ih := docker_fetch_failure_raises env qc c hpfx hq hf rest hmem'
      simp only [get_authorized_keys_docker, ih]
      by_cases h1 : env.sshPermitServicePfx.isPrefixOf d.name
      · by_cases h2 : d.id ∈ qc
        · simp [h1, h2]
        · cases hfd : env.execRun d with
          | some out => simp [h1, h2, hfd]
          | none => simp [h1, h2, hfd]
      · simp [h1]

/-- Container ids already in the query cache are never exec'd into by the
Docker variant. -/
theorem docker_cached_not_called (env : DockerEnv) (qc : List Str)
    (x : Str) (hx : x ∈ qc) :
    ∀ cs : List Container, x ∉ docker_exec_calls env cs qc
  | [] => by simp [docker_exec_calls]
  | c :: rest => by
    have ih := docker_cached_not_called env qc x hx rest
    simp only [docker_exec_calls]
    by_cases h1 : env.sshPermitServicePfx.isPrefixOf c.name
    · by_cases h2 : c.id ∈ qc
      · simpa [h1, h2] using ih
      · cases hf : env.execRun c with
        | some out =>
          simp only [h1, Bool.true_eq_false, if_false, hf]
          rw [if_neg (by simpa using h2)]
          intro hmem
          rcases List.mem_cons.mp hmem with rfl | hmem'
          · exact h2 hx
          · exact ih hmem'
        | none =>
          simp only [h1, Bool.true_eq_false, if_false, hf]
          rw [if_neg (by simpa using h2)]
          intro hmem
          rcases List.mem_singleton.mp hmem with rfl
          exact h2 hx
    · simpa [h1] using ih

/-! ## Run-level helpers -/

/-- An incremental invocation with a free lock always completes on the
Kubernetes backend: keys are appended, the query-cache file rewritten. -/
theorem kube_incremental_run (env : KubeEnv) (pods : List Str)
    (argv : List Str) (st : FsState) (hlock : st.lockHeld = false)
    (hfull : is_full_run argv = false) :
    update_cache_file (.kubernetes env pods) argv st =
      (.ok, { st with
        authorizedKeysFile := st.authorizedKeysFile ++
          filter_ssh (get_authorized_keys_kubernetes env pods
            (st.queryCacheFile.getD [])).1
        queryCacheFile := some (get_authorized_keys_kubernetes env pods
          (st.queryCacheFile.getD [])).2 }) := by
  simp [update_cache_file, hlock, hfull, run_locked, backend_fetch]

/-- A full invocation with a free lock and an existing query-cache file
always completes on the Kubernetes backend: the query-cache file is
removed first (prior state becomes the empty set), the authorized-keys
file is truncated and rewritten. -/
theorem kube_full_run (env : KubeEnv) (pods : List Str) (argv : List Str)
    (st : FsState) (l : List Str) (hlock : st.lockHeld = false)
    (hfull : is_full_run argv = true) (hqc : st.queryCacheFile = some l) :
    update_cache_file (.kubernetes env pods) argv st =
      (.ok, { st with
        authorizedKeysFile :=
          filter_ssh (get_authorized_keys_kubernetes env pods []).1
        queryCacheFile :=
          some (get_authorized_keys_kubernetes env pods []).2 }) := by
  simp [update_cache_file, hlock, hfull, hqc, run_locked, backend_fetch]

/-- If the Docker fetch raises, the incremental invocation propagates the
exception: result `error`, no file modified. -/
theorem docker_run_raises (env : DockerEnv) (cs : List Container)
    (argv : List Str) (st : FsState) (hlock : st.lockHeld = false)
    (hfull : is_full_run argv = false)
    (hnone : get_authorized_keys_docker env cs
      (st.queryCacheFile.getD []) = none) :
    update_cache_file (.docker env cs) argv st = (.error, st) := by
  simp [update_cache_file, hlock, hfull, run_locked, backend_fetch, hnone]

/-- A pod whose exec raises and which is not in the query cache
contributes nothing to the Kubernetes result: the run behaves exactly as
if the pod were absent from the listing. -/
theorem kube_failed_irrelevant (env : KubeEnv) (qc : List Str) (p : Str)
    (hf : env.fetchKey p = none) (hq : p ∉ qc) :
    ∀ pods, get_authorized_keys_kubernetes env pods qc =
      get_authorized_keys_kubernetes env (pods.filter (fun n => n != p)) qc
  | [] => rfl
  | name :: rest => by
    have ih := kube_failed_irrelevant env qc p hf hq rest
    by_cases hp : name = p
    · subst hp
      rw [List.filter_cons_of_neg (by simp)]
      rw [← ih]
      simp only [get_authorized_keys_kubernetes]
      by_cases h1 : env.sshPermitServicePfx.isPrefixOf name
      · rw [if_neg (by simp [h1])]
        rw [if_neg (by simpa using hq), hf]
      · rw [if_pos (Bool.eq_false_iff.mpr h1)]
    · rw [List.filter_cons_of_pos (by simpa using hp)]
      simp only [get_authorized_keys_kubernetes, ih]

/-- A pod whose exec raises and which is not in the query cache never
appears in the new query cache. -/
theorem kube_failed_not_in_cache (env : KubeEnv) (qc pods : List Str)
    (p : Str) (hf : env.fetchKey p = none) (hq : p ∉ qc) :
    p ∉ (get_authorized_keys_kubernetes env pods qc).2 := by
  rw [kube_snd_eq]
  intro hmem
  have := List.of_mem_filter hmem
  simp only [Bool.and_eq_true, Bool.or_eq_true] at this
  rcases this.2 with hc | hs
  · exact hq (by simpa using hc)
  · rw [hf] at hs
    exact absurd hs (by simp)

/-! ## C1 — per-unit fetch failure -/

/-- **C1** (counterexample): the claim fails for the Docker variant. With
one running container matching the empty filter whose `exec_run` raises
(the unit is unreachable during exec), the whole invocation aborts with an
uncaught exception (`error`, process exit 1): the run does **not**
continue, and neither the fetched-key results nor a new QueryCache is
persisted — the state is returned unchanged. -/
theorem C1_counterexample :
    update_cache_file
        (.docker ⟨[], fun _ => none⟩ [⟨"c1".data, "idX".data⟩])
        ["u".data] ⟨[], some [], false⟩
      = (.error, ⟨[], some [], false⟩) ∧
    exit_status (update_cache_file
        (.docker ⟨[], fun _ => none⟩ [⟨"c1".data, "idX".data⟩])
        ["u".data] ⟨[], some [], false⟩).1 = 1 := by
  constructor <;> rfl

/-- **C1** (amended): a failure of `fetch_key` for a unit in the `toFetch`
partition does not abort the run **in the Kubernetes variant**: the run
behaves exactly as if the failed pod were absent from the listing, the pod
is omitted from the new QueryCache, and the results are still persisted
(`ok`).  In the Docker variant, by contrast, `exec_run` has no exception
handling, so such a failure propagates and aborts the run with nothing
persisted. -/
theorem C1_per_unit_failure_amended :
    (∀ (env : KubeEnv) (pods qc : List Str) (p : Str) (argv : List Str)
        (st : FsState),
      env.fetchKey p = none → p ∉ qc → st.lockHeld = false →
      is_full_run argv = false → st.queryCacheFile = some qc →
      get_authorized_keys_kubernetes env pods qc =
          get_authorized_keys_kubernetes env
            (pods.filter (fun n => n != p)) qc ∧
        p ∉ (get_authorized_keys_kubernetes env pods qc).2 ∧
        update_cache_file (.kubernetes env pods) argv st =
          (.ok, { st with
            authorizedKeysFile := st.authorizedKeysFile ++
              filter_ssh (get_authorized_keys_kubernetes env pods qc).1
            queryCacheFile :=
              some (get_authorized_keys_kubernetes env pods qc).2 })) ∧
    (∀ (env : DockerEnv) (cs : List Container) (qc : List Str)
        (c : Container) (argv : List Str) (st : FsState),
      c ∈ cs → env.sshPermitServicePfx.isPrefixOf c.name = true →
      c.id ∉ qc → env.execRun c = none → st.lockHeld = false →
      is_full_run argv = false → st.queryCacheFile = some qc →
      update_cache_file (.docker env cs) argv st = (.error, st)) := by
  constructor
  · intro env pods qc p argv st hf hq hlock hfull hqc
    refine ⟨kube_failed_irrelevant env qc p hf hq pods,
      kube_failed_not_in_cache env qc pods p hf hq, ?_⟩
    have h := kube_incremental_run env pods argv st hlock hfull
    rw [hqc] at h
    simpa using h
  · intro env cs qc c argv st hmem hpfx hq hf hlock hfull hqc
    refine docker_run_raises env cs argv st hlock hfull ?_
    rw [hqc]
    simpa using docker_fetch_failure_raises env qc c hpfx hq hf cs hmem

/-- **C1** (witness): the amended theorem at a concrete input — a pod
whose exec fails is left out of the new query cache, and a Docker
container whose exec fails aborts the run. -/
theorem C1_per_unit_failure_witness :
    "p1".data ∉ (get_authorized_keys_kubernetes
        ⟨[], fun _ => none⟩ ["p1".data] []).2 ∧
    update_cache_file
        (.docker ⟨[], fun _ => none⟩ [⟨"c1".data, "idX".data⟩])
        ["u".data] ⟨[], some [], false⟩
      = (.error, ⟨[], some [], false⟩) :=
  ⟨(C1_per_unit_failure_amended.1 ⟨[], fun _ => none⟩ ["p1".data] []
      "p1".data ["u".data] ⟨[], some [], false⟩ rfl (by simp) rfl
      (by decide) rfl).2.1,
    C1_per_unit_failure_amended.2 ⟨[], fun _ => none⟩
      [⟨"c1".data, "idX".data⟩] [] ⟨"c1".data, "idX".data⟩ ["u".data]
      ⟨[], some [], false⟩ (by simp) rfl (by simp) rfl rfl (by decide) rfl⟩

/-! ## C2 — failure modes of a run; full rebuild with no persisted state -/

/-- **C2** (counterexample): invoking full-rebuild mode when no persisted
query-cache file exists **does** fail: `os.remove(query_cache_file)`
raises `FileNotFoundError`, which only the `Timeout` handler surrounds, so
the run aborts with a non-zero exit and nothing is written. -/
theorem C2_counterexample :
    update_cache_file (.kubernetes ⟨[], fun _ => some "sshk".data⟩ [])
        ["u".data, "full".data] ⟨[], none, false⟩
      = (.error, ⟨[], none, false⟩) ∧
    exit_status (update_cache_file
        (.kubernetes ⟨[], fun _ => some "sshk".data⟩ [])
        ["u".data, "full".data] ⟨[], none, false⟩).1 = 1 := by
  constructor <;> rfl

/-- **C2** (amended): beyond propagating Backend Selector failure and
the benign early exit on RunLock contention, a run fails in exactly two
ways.  (a) In either variant, invoking full-rebuild mode when no
persisted query-cache file exists: `os.remove` raises an uncaught
`FileNotFoundError` and the run aborts (non-zero exit) with nothing
written.  (b) In the Docker variant only, a `fetch_key` (`exec_run`)
failure aborts the run.  On the Kubernetes backend a run with a free
lock errors **iff** case (a) holds; on the Docker backend it errors
**iff** case (a) holds or the fetch raises on the query cache the run
loads.  When the persisted file exists, full-rebuild deletes it before
the run and treats the prior state as the empty set, completing
normally. -/
theorem C2_full_rebuild_amended :
    (∀ (env : KubeEnv) (pods : List Str) (argv : List Str) (st : FsState)
        (l : List Str),
      st.lockHeld = false → is_full_run argv = true →
      st.queryCacheFile = some l →
      update_cache_file (.kubernetes env pods) argv st =
        (.ok, { st with
          authorizedKeysFile :=
            filter_ssh (get_authorized_keys_kubernetes env pods []).1
          queryCacheFile :=
            some (get_authorized_keys_kubernetes env pods []).2 })) ∧
    (∀ (b : Backend) (argv : List Str) (st : FsState),
      st.lockHeld = false → is_full_run argv = true →
      st.queryCacheFile = none →
      update_cache_file b argv st = (.error, st) ∧
      exit_status (update_cache_file b argv st).1 = 1) ∧
    (∀ (env : KubeEnv) (pods : List Str) (argv : List Str) (st : FsState),
      st.lockHeld = false →
      ((update_cache_file (.kubernetes env pods) argv st).1 = .error ↔
        is_full_run argv = true ∧ st.queryCacheFile = none)) ∧
    (∀ (env : DockerEnv) (cs : List Container) (argv : List Str)
        (st : FsState),
      st.lockHeld = false →
      ((update_cache_file (.docker env cs) argv st).1 = .error ↔
        (is_full_run argv = true ∧ st.queryCacheFile = none) ∨
        (is_full_run argv = true ∧ st.queryCacheFile ≠ none ∧
          get_authorized_keys_docker env cs [] = none) ∨
        (is_full_run argv = false ∧
          get_authorized_keys_docker env cs
            (st.queryCacheFile.getD []) = none))) := by
  refine ⟨?_, ?_, ?_, ?_⟩
  · intro env pods argv st l hlock hfull hqc
    exact kube_full_run env pods argv st l hlock hfull hqc
  · intro b argv st hlock hfull hqc
    have heq : update_cache_file b argv st = (.error, st) := by
      simp [update_cache_file, hlock, hfull, hqc]
    exact ⟨heq, by simp [heq, exit_status]⟩
  · intro env pods argv st hlock
    by_cases hfull : is_full_run argv = true
    · cases hqc : st.queryCacheFile with
      | none => simp [update_cache_file, hlock, hfull, hqc]
      | some l =>
        rw [kube_full_run env pods argv st l hlock hfull hqc]
        simp [hfull, hqc]
    · have hfull2 : is_full_run argv = false := by simpa using hfull
      rw [kube_incremental_run env pods argv st hlock hfull2]
      simp [hfull2]
  · intro env cs argv st hlock
    by_cases hfull : is_full_run argv = true
    · cases hqc : st.queryCacheFile with
      | none => simp [update_cache_file, hlock, hfull, hqc]
      | some l =>
        cases hf : get_authorized_keys_docker env cs [] with
        | none =>
          simp [update_cache_file, hlock, hfull, hqc, run_locked,
            backend_fetch, hf]
        | some r =>
          simp [update_cache_file, hlock, hfull, hqc, run_locked,
            backend_fetch, hf]
    · have hfull2 : is_full_run argv = false := by simpa using hfull
      cases hf : get_authorized_keys_docker env cs
          (st.queryCacheFile.getD []) with
      | none =>
        simp [update_cache_file, hlock, hfull2, run_locked,
          backend_fetch, hf]
      | some r =>
        simp [update_cache_file, hlock, hfull2, run_locked,
          backend_fetch, hf]

/-- **C2** (witness): the amended theorem at concrete inputs — a full
rebuild with an existing cache file completes from an empty prior state;
a full rebuild with no cache file errors with exit status 1; and a
Docker run whose exec raises errors as well. -/
theorem C2_full_rebuild_witness :
    update_cache_file
        (.kubernetes ⟨[], fun _ => some "sshk".data⟩ ["p1".data])
        ["u".data, "full".data] ⟨["old".data], some ["p0".data], false⟩
      = (.ok, ⟨filter_ssh (get_authorized_keys_kubernetes
            ⟨[], fun _ => some "sshk".data⟩ ["p1".data] []).1,
          some (get_authorized_keys_kubernetes
            ⟨[], fun _ => some "sshk".data⟩ ["p1".data] []).2,
          false⟩) ∧
    update_cache_file (.kubernetes ⟨[], fun _ => some "sshk".data⟩ [])
        ["u".data, "full".data] ⟨[], none, false⟩
      = (.error, ⟨[], none, false⟩) ∧
    exit_status (update_cache_file
        (.kubernetes ⟨[], fun _ => some "sshk".data⟩ [])
        ["u".data, "full".data] ⟨[], none, false⟩).1 = 1 ∧
    (update_cache_file (.docker ⟨[], fun _ => none⟩ [⟨"c2".data, "i2".data⟩])
        ["u".data] ⟨[], some [], false⟩).1 = .error :=
  ⟨C2_full_rebuild_amended.1 ⟨[], fun _ => some "sshk".data⟩ ["p1".data]
      ["u".data, "full".data] ⟨["old".data], some ["p0".data], false⟩
      ["p0".data] rfl (by decide) rfl,
    (C2_full_rebuild_amended.2.1
      (.kubernetes ⟨[], fun _ => some "sshk".data⟩ [])
      ["u".data, "full".data] ⟨[], none, false⟩ rfl (by decide) rfl).1,
    (C2_full_rebuild_amended.2.1
      (.kubernetes ⟨[], fun _ => some "sshk".data⟩ [])
      ["u".data, "full".data] ⟨[], none, false⟩ rfl (by decide) rfl).2,
    (C2_full_rebuild_amended.2.2.2 ⟨[], fun _ => none⟩
      [⟨"c2".data, "i2".data⟩] ["u".data] ⟨[], some [], false⟩ rfl).mpr
      (Or.inr (Or.inr ⟨by decide, rfl⟩))⟩

/-! ## C8 — lock contention is a benign no-op -/

/-- **C8**: when the lock is already held, `FileLock(timeout=0)` raises
`Timeout` immediately; it is caught and ignored, so the invocation exits
with status 0 having modified neither the authorized-keys cache file nor
the query-cache file. -/
theorem C8_lock_contention (b : Backend) (argv : List Str) (st : FsState)
    (h : st.lockHeld = true) :
    update_cache_file b argv st = (.lockBusy, st) ∧
    exit_status (update_cache_file b argv st).1 = 0 ∧
    (update_cache_file b argv st).2.authorizedKeysFile =
      st.authorizedKeysFile ∧
    (update_cache_file b argv st).2.queryCacheFile = st.queryCacheFile := by
  have heq : update_cache_file b argv st = (.lockBusy, st) := by
    simp [update_cache_file, h]
  exact ⟨heq, by simp [heq, exit_status], by rw [heq], by rw [heq]⟩

/-- **C8** (witness): lock contention at a concrete input. -/
theorem C8_lock_contention_witness :
    update_cache_file (.kubernetes ⟨[], fun _ => some "sshk".data⟩ ["p1".data])
        ["u".data] ⟨["k0".data], some ["a".data], true⟩
      = (.lockBusy, ⟨["k0".data], some ["a".data], true⟩) ∧
    exit_status (update_cache_file
        (.kubernetes ⟨[], fun _ => some "sshk".data⟩ ["p1".data])
        ["u".data] ⟨["k0".data], some ["a".data], true⟩).1 = 0 ∧
    (update_cache_file (.kubernetes ⟨[], fun _ => some "sshk".data⟩ ["p1".data])
        ["u".data] ⟨["k0".data], some ["a".data], true⟩).2.authorizedKeysFile =
      ["k0".data] ∧
    (update_cache_file (.kubernetes ⟨[], fun _ => some "sshk".data⟩ ["p1".data])
        ["u".data] ⟨["k0".data], some ["a".data], true⟩).2.queryCacheFile =
      some ["a".data] :=
  C8_lock_contention (.kubernetes ⟨[], fun _ => some "sshk".data⟩ ["p1".data])
    ["u".data] ⟨["k0".data], some ["a".data], true⟩ rfl

/-! ## C3 — the new QueryCache is a union of carried and fetched -/

/-- **C3**: for every prior QueryCache and fleet snapshot, the new
QueryCache is exactly the union of (a) prior identifiers still present
among the currently listed prefix-matching units, carried forward with no
exec call made for them, and (b) identifiers of units successfully
fetched this run — in both backend variants (for Docker, of any run that
completes). -/
theorem C3_new_cache_union :
    (∀ (env : KubeEnv) (pods qc : List Str) (x : Str),
      (x ∈ (get_authorized_keys_kubernetes env pods qc).2 ↔
        (x ∈ qc ∧ x ∈ pods.filter
            (fun n => env.sshPermitServicePfx.isPrefixOf n)) ∨
        (x ∈ pods.filter (fun n => env.sshPermitServicePfx.isPrefixOf n) ∧
          x ∉ qc ∧ (env.fetchKey x).isSome)) ∧
      (x ∈ qc → x ∉ kube_exec_calls env pods qc)) ∧
    (∀ (env : DockerEnv) (cs : List Container) (qc : List Str)
        (r : List Str × List Str) (x : Str),
      get_authorized_keys_docker env cs qc = some r →
      (x ∈ r.2 ↔
        (x ∈ qc ∧ ∃ c ∈ cs,
          env.sshPermitServicePfx.isPrefixOf c.name ∧ c.id = x) ∨
        (∃ c ∈ cs, env.sshPermitServicePfx.isPrefixOf c.name ∧ c.id = x ∧
          x ∉ qc ∧ (env.execRun c).isSome)) ∧
      (x ∈ qc → x ∉ docker_exec_calls env cs qc)) := by
  constructor
  · intro env pods qc x
    refine ⟨?_, fun hx => kube_cached_not_called env qc pods x hx⟩
    rw [kube_snd_eq]
    by_cases hq : x ∈ qc <;> by_cases hs : (env.fetchKey x).isSome <;>
      simp [hq, hs, List.mem_filter]
  · intro env cs qc r x hsome
    refine ⟨?_, fun hx => docker_cached_not_called env qc x hx cs⟩
    have h2 := (docker_some_eq env qc cs r hsome).2
    rw [h2]
    constructor
    · intro hmem
      simp only [List.mem_map, List.mem_filter] at hmem
      obtain ⟨c, ⟨hc, hpfx⟩, hid⟩ := hmem
      by_cases hq : x ∈ qc
      · exact Or.inl ⟨hq, c, hc, hpfx, hid⟩
      · refine Or.inr ⟨c, hc, hpfx, hid, hq, ?_⟩
        cases hf : env.execRun c with
        | some out => simp
        | none =>
          have := docker_fetch_failure_raises env qc c hpfx
            (by rwa [hid]) hf cs hc
          rw [this] at hsome
          exact absurd hsome (by simp)
    · rintro (⟨_, c, hc, hpfx, hid⟩ | ⟨c, hc, hpfx, hid, _, _⟩) <;>
        exact List.mem_map.mpr ⟨c, List.mem_filter.mpr ⟨hc, hpfx⟩, hid⟩

/-- **C3** (witness): at a concrete input — a cached pod (and container
id) is carried forward and never exec'd into. -/
theorem C3_new_cache_union_witness :
    "b".data ∉ kube_exec_calls ⟨[], fun _ => some "sshX".data⟩
        ["a".data, "b".data] ["b".data] ∧
    "i1".data ∉ docker_exec_calls ⟨[], fun _ => some "sshX".data⟩
        [⟨"c1".data, "i1".data⟩] ["i1".data] :=
  ⟨(C3_new_cache_union.1 ⟨[], fun _ => some "sshX".data⟩
      ["a".data, "b".data] ["b".data] "b".data).2 (by simp),
    (C3_new_cache_union.2 ⟨[], fun _ => some "sshX".data⟩
      [⟨"c1".data, "i1".data⟩] ["i1".data] ([], ["i1".data])
      "i1".data rfl).2 (by simp)⟩

/-! ## C4 — incremental run against an empty fleet snapshot -/

/-- **C4** (counterexample): with a non-empty prior QueryCache
(`["a"]`) and an empty fleet snapshot, the incremental run rewrites the
persisted query-cache file with the **empty** list — the prior entry is
dropped, not carried: the persisted QueryCache does not remain
unchanged. -/
theorem C4_counterexample :
    (update_cache_file (.kubernetes ⟨[], fun _ => some "sshk".data⟩ [])
        ["u".data] ⟨[], some ["a".data], false⟩).2.queryCacheFile
      = some [] ∧
    (update_cache_file (.kubernetes ⟨[], fun _ => some "sshk".data⟩ [])
        ["u".data] ⟨[], some ["a".data], false⟩).2.queryCacheFile
      ≠ some ["a".data] := by
  constructor
  · rfl
  · decide

/-- **C4** (amended): for every prior QueryCache, an incremental run
against an empty fleet snapshot appends no keys but rewrites the
persisted QueryCache to the **empty** set: prior entries are carried as
`skip` only when still present in the snapshot, so none survive.  Holds
for both variants. -/
theorem C4_empty_fleet_amended :
    (∀ (env : KubeEnv) (argv : List Str) (st : FsState),
      st.lockHeld = false → is_full_run argv = false →
      update_cache_file (.kubernetes env []) argv st =
        (.ok, { st with queryCacheFile := some ([] : List Str) })) ∧
    (∀ (env : DockerEnv) (argv : List Str) (st : FsState),
      st.lockHeld = false → is_full_run argv = false →
      update_cache_file (.docker env []) argv st =
        (.ok, { st with queryCacheFile := some ([] : List Str) })) := by
  constructor
  · intro env argv st hlock hfull
    simp [update_cache_file, hlock, hfull, run_locked, backend_fetch,
      get_authorized_keys_kubernetes, filter_ssh]
  · intro env argv st hlock hfull
    simp [update_cache_file, hlock, hfull, run_locked, backend_fetch,
      get_authorized_keys_docker, filter_ssh]

/-- **C4** (witness): the amended theorem at concrete inputs. -/
theorem C4_empty_fleet_witness :
    update_cache_file (.kubernetes ⟨[], fun _ => some "sshk".data⟩ [])
        ["u".data] ⟨["k0".data], some ["a".data], false⟩
      = (.ok, ⟨["k0".data], some [], false⟩) ∧
    update_cache_file (.docker ⟨[], fun _ => none⟩ [])
        ["u".data] ⟨["k0".data], some ["a".data], false⟩
      = (.ok, ⟨["k0".data], some [], false⟩) :=
  ⟨C4_empty_fleet_amended.1 ⟨[], fun _ => some "sshk".data⟩ ["u".data]
      ⟨["k0".data], some ["a".data], false⟩ rfl (by decide),
    C4_empty_fleet_amended.2 ⟨[], fun _ => none⟩ ["u".data]
      ⟨["k0".data], some ["a".data], false⟩ rfl (by decide)⟩

/-! ## C5 — full rebuild clears prior state -/

/-- **C5**: after a full-rebuild invocation completes, the
authorized-keys cache file contains exactly the well-formed
(`ssh`-prefixed) keys fetched in that run — no earlier key survives
unless re-fetched — and the persisted query cache contains exactly the
identifiers recorded (fetched or skipped) in that run, for either
backend. -/
theorem C5_full_rebuild_exact (b : Backend) (argv : List Str)
    (st st' : FsState) (hfull : is_full_run argv = true)
    (hrun : update_cache_file b argv st = (.ok, st')) :
    ∃ r, backend_fetch b [] = some r ∧
      st'.authorizedKeysFile = filter_ssh r.1 ∧
      st'.queryCacheFile = some r.2 := by
  by_cases hlock : st.lockHeld
  · simp [update_cache_file, hlock] at hrun
  · cases hqc : st.queryCacheFile with
    | none => simp [update_cache_file, hlock, hfull, hqc] at hrun
    | some l =>
      cases hf : backend_fetch b [] with
      | none =>
        simp [update_cache_file, hlock, hfull, hqc, run_locked, hf] at hrun
      | some r =>
        refine ⟨r, rfl, ?_⟩
        simp [update_cache_file, hlock, hfull, hqc, run_locked, hf] at hrun
        rw [← hrun]
        constructor <;> rfl

/-- **C5** (witness): a concrete full rebuild — the stale key `"old"` and
stale cache entry `"x"` are gone; only this run's results remain. -/
theorem C5_full_rebuild_witness :
    ∃ r, backend_fetch
        (.kubernetes ⟨[], fun _ => some "sshk".data⟩ ["p1".data]) [] = some r ∧
      (⟨["sshk".data], some ["p1".data], false⟩ : FsState).authorizedKeysFile =
        filter_ssh r.1 ∧
      (⟨["sshk".data], some ["p1".data], false⟩ : FsState).queryCacheFile =
        some r.2 :=
  C5_full_rebuild_exact
    (.kubernetes ⟨[], fun _ => some "sshk".data⟩ ["p1".data])
    ["u".data, "full".data] ⟨["old".data], some ["x".data], false⟩
    ⟨["sshk".data], some ["p1".data], false⟩ (by decide) (by decide)

/-! ## C6 — format filtering never blocks cache recording -/

/-- Every line of `filter_ssh` output begins with `ssh`. -/
theorem mem_filter_ssh_starts (keys : List Str) (k : Str)
    (h : k ∈ filter_ssh keys) : "ssh".data <+: k := by
  have := List.of_mem_filter h
  exact List.isPrefixOf_iff_prefix.mp this

/-- **C6**: in any mode, a completed run only ever writes lines beginning
with the `ssh` prefix to the authorized-keys file (any other line of the
final file was already there before the run); yet a pod whose exec
succeeded is recorded in the new QueryCache regardless of the fetched
text, and a fetched text not beginning with `ssh` never appears in the
written portion. -/
theorem C6_format_filtering :
    (∀ (b : Backend) (argv : List Str) (st st' : FsState),
      update_cache_file b argv st = (.ok, st') →
      ∀ k ∈ st'.authorizedKeysFile,
        k ∈ st.authorizedKeysFile ∨ "ssh".data <+: k) ∧
    (∀ (env : KubeEnv) (pods qc : List Str) (p t : Str),
      p ∈ pods → env.sshPermitServicePfx.isPrefixOf p = true → p ∉ qc →
      env.fetchKey p = some t →
      p ∈ (get_authorized_keys_kubernetes env pods qc).2 ∧
      (¬ "ssh".data <+: t →
        t ∉ filter_ssh (get_authorized_keys_kubernetes env pods qc).1)) := by
  constructor
  · intro b argv st st' hrun k hk
    by_cases hlock : st.lockHeld
    · simp [update_cache_file, hlock] at hrun
    · by_cases hfull : is_full_run argv = true
      · cases hqc : st.queryCacheFile with
        | none => simp [update_cache_file, hlock, hfull, hqc] at hrun
        | some l =>
          cases hf : backend_fetch b [] with
          | none =>
            simp [update_cache_file, hlock, hfull, hqc, run_locked, hf]
              at hrun
          | some r =>
            simp [update_cache_file, hlock, hfull, hqc, run_locked, hf]
              at hrun
            rw [← hrun] at hk
            simp only [FsState.mk.injEq] at hk
            exact Or.inr (mem_filter_ssh_starts r.1 k (by simpa using hk))
      · cases hf : backend_fetch b (st.queryCacheFile.getD []) with
        | none =>
          simp [update_cache_file, hlock, hfull, run_locked, hf] at hrun
        | some r =>
          simp [update_cache_file, hlock, hfull, run_locked, hf] at hrun
          rw [← hrun] at hk
          rcases List.mem_append.mp (by simpa using hk) with hb | hn
          · exact Or.inl hb
          · exact Or.inr (mem_filter_ssh_starts r.1 k hn)
  · intro env pods qc p t hp hpfx hq hf
    constructor
    · rw [kube_snd_eq]
      refine List.mem_filter.mpr ⟨hp, ?_⟩
      simp [hpfx, hf, List.isPrefixOf_iff_prefix.mp hpfx]
    · intro hbad hmem
      exact hbad (mem_filter_ssh_starts _ t hmem)

/-- **C6** (witness): a pod returning the malformed text `"bad"` is still
recorded in the new QueryCache and its text is not written; and a
concrete completed run only adds `ssh`-prefixed lines. -/
theorem C6_format_filtering_witness :
    ("p1".data ∈ (get_authorized_keys_kubernetes
        ⟨[], fun _ => some "bad".data⟩ ["p1".data] []).2 ∧
      (¬ "ssh".data <+: "bad".data →
        "bad".data ∉ filter_ssh (get_authorized_keys_kubernetes
          ⟨[], fun _ => some "bad".data⟩ ["p1".data] []).1)) ∧
    (∀ k ∈ (update_cache_file
        (.kubernetes ⟨[], fun _ => some "bad".data⟩ ["p1".data])
        ["u".data] ⟨["zzz".data], some [], false⟩).2.authorizedKeysFile,
      k ∈ ["zzz".data] ∨ "ssh".data <+: k) :=
  ⟨C6_format_filtering.2 ⟨[], fun _ => some "bad".data⟩ ["p1".data] []
      "p1".data "bad".data (by simp) rfl (by simp) rfl,
    fun k hk => C6_format_filtering.1
      (.kubernetes ⟨[], fun _ => some "bad".data⟩ ["p1".data]) ["u".data]
      ⟨["zzz".data], some [], false⟩
      ⟨["zzz".data], some ["p1".data], false⟩ rfl k hk⟩

/-! ## C7 — incremental idempotence -/

/-- Feeding the new query cache of a Kubernetes run back into a second
run over the same listing and exec oracle fetches nothing new and
reproduces the same cache: every listed matching pod either is already in
the new cache (skipped), or failed its exec in the first run and fails
identically in the second. -/
theorem kube_stable (env : KubeEnv) (pods qc : List Str) :
    get_authorized_keys_kubernetes env pods
        (get_authorized_keys_kubernetes env pods qc).2 =
      ([], (get_authorized_keys_kubernetes env pods qc).2) := by
  have hmem : ∀ n, n ∈ (get_authorized_keys_kubernetes env pods qc).2 ↔
      n ∈ pods ∧ (env.sshPermitServicePfx <+: n ∧
        (n ∈ qc ∨ (env.fetchKey n).isSome)) := by
    intro n
    rw [kube_snd_eq]
    simp [List.mem_filter]
  refine Prod.ext ?_ ?_
  · rw [kube_fst_eq]
    rw [List.filterMap_eq_nil_iff]
    intro n hn
    by_cases hP : env.sshPermitServicePfx <+: n
    · by_cases hc : n ∈ (get_authorized_keys_kubernetes env pods qc).2
      · simp [hc]
      · cases hf : env.fetchKey n with
        | none => simp [hf]
        | some k =>
          exact absurd ((hmem n).mpr ⟨hn, hP, Or.inr (by simp [hf])⟩) hc
    · simp only [Bool.and_eq_true, decide_eq_true_eq, Bool.not_eq_true,
        ite_eq_right_iff, Bool.and_eq_false_iff]
      intro hcond
      exact absurd (List.isPrefixOf_iff_prefix.mp hcond.1) hP
  · conv_lhs => rw [kube_snd_eq]
    conv_rhs => rw [kube_snd_eq]
    refine List.filter_congr ?_
    intro n hn
    by_cases hP : env.sshPermitServicePfx <+: n
    · by_cases hs : (env.fetchKey n).isSome
      · by_cases hc : n ∈ (get_authorized_keys_kubernetes env pods qc).2 <;>
          simp [hP, hs, hc, List.isPrefixOf_iff_prefix]
      · by_cases hq : n ∈ qc
        · have hc : n ∈ (get_authorized_keys_kubernetes env pods qc).2 :=
            (hmem n).mpr ⟨hn, hP, Or.inl hq⟩
          simp [hP, hs, hc, hq, List.isPrefixOf_iff_prefix]
        · have hc : n ∉ (get_authorized_keys_kubernetes env pods qc).2 := by
            intro hmem2
            rcases ((hmem n).mp hmem2).2.2 with h | h
            · exact hq h
            · exact hs h
          simp [hP, hs, hc, hq, List.isPrefixOf_iff_prefix]
    · have hPb : List.isPrefixOf env.sshPermitServicePfx n = false := by
        rw [← Bool.not_eq_true, List.isPrefixOf_iff_prefix]
        exact hP
      simp [hPb]

/-- **C7**: running the builder incrementally twice on the Kubernetes
backend against the same unchanged fleet snapshot (same listing, same
exec behaviour), with a non-empty prior query cache, makes the second run
append no keys and leave both the authorized-keys file and the persisted
query cache exactly as the first run left them. -/
theorem C7_incremental_idempotent (env : KubeEnv) (pods : List Str)
    (argv : List Str) (st : FsState) (qc : List Str)
    (hlock : st.lockHeld = false) (hfull : is_full_run argv = false)
    (hqc : st.queryCacheFile = some qc) (hne : qc ≠ []) :
    update_cache_file (.kubernetes env pods) argv
        (update_cache_file (.kubernetes env pods) argv st).2 =
      (.ok, (update_cache_file (.kubernetes env pods) argv st).2) := by
  rw [kube_incremental_run env pods argv st hlock hfull]
  rw [kube_incremental_run env pods argv _ (by exact hlock) hfull]
  rw [hqc]
  simp only [Option.getD_some, kube_stable, filter_ssh, List.filter_nil,
    List.append_nil]

/-- **C7** (witness): a concrete double run — fleet `{p1, p2}`, prior
cache `{p2}` — where the second run changes nothing. -/
theorem C7_incremental_idempotent_witness :
    update_cache_file
        (.kubernetes ⟨[], fun _ => some "sshk".data⟩ ["p1".data, "p2".data])
        ["u".data]
        (update_cache_file
          (.kubernetes ⟨[], fun _ => some "sshk".data⟩
            ["p1".data, "p2".data])
          ["u".data] ⟨[], some ["p2".data], false⟩).2 =
      (.ok, (update_cache_file
        (.kubernetes ⟨[], fun _ => some "sshk".data⟩
          ["p1".data, "p2".data])
        ["u".data] ⟨[], some ["p2".data], false⟩).2) :=
  C7_incremental_idempotent ⟨[], fun _ => some "sshk".data⟩
    ["p1".data, "p2".data] ["u".data] ⟨[], some ["p2".data], false⟩
    ["p2".data] rfl (by decide) rfl (by decide)

/-! ## C9 — the query cache is a monotonic skip-list across runs -/

/-- The sequence of invocations of `update_cache_file`, each against its
own backend snapshot and argument vector, threading the filesystem state:
each element pairs the state a run starts from with that run's backend
and argv. -/
def states_along (runs : List (Backend × List Str)) (st : FsState) :
    List (FsState × Backend × List Str) :=
  match runs with
  | [] => []
  | r :: rest =>
    (st, r) :: states_along rest (update_cache_file r.1 r.2 st).2

/-- **C9**: across any sequence of runs in which no full rebuild occurs
and the identifier `x` remains in the persisted query cache at the start
of every run, no `fetch_key` exec call is ever issued for `x` in any of
those runs, whichever backend variant each run uses. -/
theorem C9_monotonic_skip (runs : List (Backend × List Str))
    (st : FsState) (x : Str)
    (hincr : ∀ e ∈ states_along runs st, is_full_run e.2.2 = false)
    (hkeep : ∀ e ∈ states_along runs st,
      x ∈ e.1.queryCacheFile.getD []) :
    ∀ e ∈ states_along runs st,
      x ∉ run_exec_calls e.2.1 e.2.2 e.1 := by
  intro e he
  have h1 := hincr e he
  have h2 := hkeep e he
  unfold run_exec_calls
  by_cases hl : e.1.lockHeld
  · simp [hl]
  · simp only [hl, Bool.false_eq_true, if_false, h1]
    cases hb : e.2.1 with
    | kubernetes env pods =>
      simpa [backend_exec_calls] using
        kube_cached_not_called env (e.1.queryCacheFile.getD []) pods x h2
    | docker env cs =>
      simpa [backend_exec_calls] using
        docker_cached_not_called env (e.1.queryCacheFile.getD []) x h2 cs

/-- **C9** (witness): a concrete two-run incremental sequence in which
the cached pod `p2` is never exec'd into — neither in the first run nor
in the second run started from the state the first run left behind. -/
theorem C9_monotonic_skip_witness :
    "p2".data ∉ run_exec_calls
        (.kubernetes ⟨[], fun _ => some "sshk".data⟩
          ["p1".data, "p2".data]) ["u".data]
        ⟨[], some ["p2".data], false⟩ ∧
    "p2".data ∉ run_exec_calls
        (.kubernetes ⟨[], fun _ => some "sshk".data⟩
          ["p1".data, "p2".data]) ["u".data]
        (update_cache_file
          (.kubernetes ⟨[], fun _ => some "sshk".data⟩
            ["p1".data, "p2".data]) ["u".data]
          ⟨[], some ["p2".data], false⟩).2 :=
  ⟨C9_monotonic_skip
      [((.kubernetes ⟨[], fun _ => some "sshk".data⟩
          ["p1".data, "p2".data]), ["u".data]),
        ((.kubernetes ⟨[], fun _ => some "sshk".data⟩
          ["p1".data, "p2".data]), ["u".data])]
      ⟨[], some ["p2".data], false⟩ "p2".data
      (by intro e he; fin_cases he <;> rfl)
      (by intro e he; fin_cases he <;> decide)
      (⟨[], some ["p2".data], false⟩,
        (.kubernetes ⟨[], fun _ => some "sshk".data⟩
          ["p1".data, "p2".data]), ["u".data])
      (List.Mem.head _),
    C9_monotonic_skip
      [((.kubernetes ⟨[], fun _ => some "sshk".data⟩
          ["p1".data, "p2".data]), ["u".data]),
        ((.kubernetes ⟨[], fun _ => some "sshk".data⟩
          ["p1".data, "p2".data]), ["u".data])]
      ⟨[], some ["p2".data], false⟩ "p2".data
      (by intro e he; fin_cases he <;> rfl)
      (by intro e he; fin_cases he <;> decide)
      ((update_cache_file
          (.kubernetes ⟨[], fun _ => some "sshk".data⟩
            ["p1".data, "p2".data]) ["u".data]
          ⟨[], some ["p2".data], false⟩).2,
        (.kubernetes ⟨[], fun _ => some "sshk".data⟩
          ["p1".data, "p2".data]), ["u".data])
      (List.Mem.tail _ (List.Mem.head _))⟩

/-! ## C10 — cross-process mutual exclusion

Two concurrent invocations of the script on one host are modelled as an
interleaving of two processes sharing the lock file and the cache files.
Each process follows the program structure of `update_cache_file`:
attempt the non-blocking `FileLock(timeout=0)` acquisition; on success
run the locked fetch-and-persist body and release; on `Timeout` exit at
once, touching nothing.  The exclusive-acquisition semantics of the lock
file is that of the `filelock` collaborator at its interface boundary. -/

/-- Where a process is in `update_cache_file`: before the `FileLock`
acquisition attempt; inside the `with lock` block; exited via the caught
`Timeout` (clean no-op); or finished the locked body and released. -/
inductive ProcPhase where
  | start
  | critical
  | doneBusy
  | doneOk
deriving DecidableEq, Repr

/-- Shared host state for two concurrent invocations: the cache files,
who holds `cache_files.lock`, each process's position, and how many
persist (fetch-and-write) sequences each process has performed. -/
structure SysState where
  files : FsState
  lockOwner : Option (Fin 2)
  phase : Fin 2 → ProcPhase
  writes : Fin 2 → Nat

/-- Interleaving semantics of two concurrent invocations, parametrised by
each process's locked body `work i` (the load–fetch–persist sequence that
process `i` would run, e.g. `update_cache_file` with its backend and
argv): a free lock may be acquired; an occupied lock answers `Timeout`
and the caller exits untouched; a lock holder runs its body on the shared
files, increments its persist count and releases. -/
inductive SysStep (work : Fin 2 → FsState → FsState) :
    SysState → SysState → Prop where
  | acquire (s : SysState) (i : Fin 2) :
      s.phase i = .start → s.lockOwner = none →
      SysStep work s { s with
        lockOwner := some i
        phase := Function.update s.phase i .critical }
  | busy (s : SysState) (i : Fin 2) :
      s.phase i = .start → s.lockOwner ≠ none →
      SysStep work s { s with
        phase := Function.update s.phase i .doneBusy }
  | finish (s : SysState) (i : Fin 2) :
      s.phase i = .critical →
      SysStep work s { s with
        files := work i s.files
        lockOwner := none
        phase := Function.update s.phase i .doneOk
        writes := Function.update s.writes i (s.writes i + 1) }

/-- Both invocations start before lock acquisition with no writes done. -/
def sys_init (fs : FsState) : SysState :=
  ⟨fs, none, fun _ => .start, fun _ => 0⟩

/-- The inductive invariant: being inside the locked section coincides
with owning the lock, and a process that has not passed acquisition has
performed no persist sequence. -/
def SysInv (s : SysState) : Prop :=
  (∀ i, s.phase i = .critical ↔ s.lockOwner = some i) ∧
  (∀ i, s.phase i = .start → s.writes i = 0) ∧
  (∀ i, s.phase i = .doneBusy → s.writes i = 0)

/-- Each interleaving step preserves the invariant. -/
theorem sys_step_inv {work : Fin 2 → FsState → FsState} {s s' : SysState}
    (hinv : SysInv s) (hstep : SysStep work s s') : SysInv s' := by
  obtain ⟨h1, h2, h3⟩ := hinv
  cases hstep with
  | acquire i hi hlock =>
    refine ⟨fun j => ?_, fun j hj => ?_, fun j hj => ?_⟩
    · by_cases hj : j = i
      · subst hj
        simp [Function.update_same]
      · simp only [Function.update_noteq hj]
        constructor
        · intro hc
          have hx := (h1 j).mp hc
          rw [hlock] at hx
          exact absurd hx (by simp)
        · intro hc
          exact absurd (Option.some.inj hc).symm hj
    · by_cases hij : j = i
      · subst hij
        exact absurd hj (by simp [Function.update_same])
      · simp only [Function.update_noteq hij] at hj
        exact h2 _ hj
    · by_cases hij : j = i
      · subst hij
        exact absurd hj (by simp [Function.update_same])
      · simp only [Function.update_noteq hij] at hj
        exact h3 _ hj
  | busy i hi hlock =>
    refine ⟨fun j => ?_, fun j hj => ?_, fun j hj => ?_⟩
    · by_cases hj : j = i
      · subst hj
        simp only [Function.update_same]
        constructor
        · intro hc
          exact absurd hc (by simp)
        · intro hc
          have hx := (h1 _).mpr hc
          rw [hi] at hx
          exact absurd hx (by simp)
      · simp only [Function.update_noteq hj]
        exact h1 j
    · by_cases hij : j = i
      · subst hij
        exact absurd hj (by simp [Function.update_same])
      · simp only [Function.update_noteq hij] at hj
        exact h2 _ hj
    · by_cases hij : j = i
      · subst hij
        exact h2 _ hi
      · simp only [Function.update_noteq hij] at hj
        exact h3 _ hj
  | finish i hi =>
    have hlock : s.lockOwner = some i := (h1 i).mp hi
    refine ⟨fun j => ?_, fun j hj => ?_, fun j hj => ?_⟩
    · constructor
      · intro hc
        by_cases hj : j = i
        · subst hj
          exact absurd hc (by simp [Function.update_same])
        · simp only [Function.update_noteq hj] at hc
          have hx := (h1 j).mp hc
          rw [hlock] at hx
          exact absurd (Option.some.inj hx) (fun e => hj e.symm)
      · intro hc
        exact absurd hc (by simp)
    · by_cases hij : j = i
      · subst hij
        exact absurd hj (by simp [Function.update_same])
      · simp only [Function.update_noteq hij] at hj ⊢
        exact h2 _ hj
    · by_cases hij : j = i
      · subst hij
        exact absurd hj (by simp [Function.update_same])
      · simp only [Function.update_noteq hij] at hj ⊢
        exact h3 _ hj

/-- **C10**: in every state reachable by interleaving two concurrent
invocations from a common start, never are both past lock acquisition
(inside the locked fetch-and-persist section) at once, and an invocation
that exited on lock contention has performed no fetch-and-persist
sequence — it had no side effects on the shared files. -/
theorem C10_mutual_exclusion (work : Fin 2 → FsState → FsState)
    (fs0 : FsState) (s : SysState)
    (h : Relation.ReflTransGen (SysStep work) (sys_init fs0) s) :
    ¬ (s.phase 0 = .critical ∧ s.phase 1 = .critical) ∧
    (∀ i, s.phase i = .doneBusy → s.writes i = 0) := by
  have hinv : SysInv s := by
    induction h with
    | refl =>
      refine ⟨?_, ?_, ?_⟩
      · intro i
        constructor
        · intro hc
          cases hc
        · intro hc
          cases hc
      · intro i _
        rfl
      · intro i hc
        cases hc
    | tail _ hstep ih => exact sys_step_inv ih hstep
  refine ⟨?_, hinv.2.2⟩
  rintro ⟨hc0, hc1⟩
  have e0 := (hinv.1 0).mp hc0
  have e1 := (hinv.1 1).mp hc1
  rw [e0] at e1
  exact absurd (Option.some.inj e1) (by decide)

/-- **C10** (witness): a concrete interleaving — process 0 acquires the
lock and, while it is held, process 1 attempts acquisition and exits on
`Timeout` — reaches a state where mutual exclusion and the no-side-effect
guarantee hold, with each locked body running the real
`update_cache_file`. -/
theorem C10_mutual_exclusion_witness :
    ¬ ((⟨⟨[], some [], false⟩, some 0,
          Function.update (Function.update (fun _ => ProcPhase.start) 0
            ProcPhase.critical) 1 ProcPhase.doneBusy,
          fun _ => 0⟩ : SysState).phase 0 = ProcPhase.critical ∧
        (⟨⟨[], some [], false⟩, some 0,
          Function.update (Function.update (fun _ => ProcPhase.start) 0
            ProcPhase.critical) 1 ProcPhase.doneBusy,
          fun _ => 0⟩ : SysState).phase 1 = ProcPhase.critical) ∧
    (∀ i, (⟨⟨[], some [], false⟩, some 0,
          Function.update (Function.update (fun _ => ProcPhase.start) 0
            ProcPhase.critical) 1 ProcPhase.doneBusy,
          fun _ => 0⟩ : SysState).phase i = ProcPhase.doneBusy →
        (⟨⟨[], some [], false⟩, some 0,
          Function.update (Function.update (fun _ => ProcPhase.start) 0
            ProcPhase.critical) 1 ProcPhase.doneBusy,
          fun _ => 0⟩ : SysState).writes i = 0) :=
  C10_mutual_exclusion
    (fun _ fs => (update_cache_file
      (.kubernetes ⟨[], fun _ => some "sshk".data⟩ ["p1".data])
      ["u".data] fs).2)
    ⟨[], some [], false⟩ _
    (Relation.ReflTransGen.tail
      (Relation.ReflTransGen.tail Relation.ReflTransGen.refl
        (SysStep.acquire _ 0 rfl rfl))
      (SysStep.busy _ 1 (by simp [sys_init, Function.update]) (by simp)))
